import Mathlib

/-!
Verification of the canvas tile-layer renderer
(src/ol/renderer/canvas/TileLayer.js) against its natural-language
specification.  The renderer's own code is embedded faithfully; external
collaborators (tile grid, tile source, Tile class, transform utility, base
layer renderer) are either passed in as structure-of-functions parameters or
modelled from the specification where noted.  All machine arithmetic is
modelled exactly over the rationals; JS Math.round is floor (x + 1/2).
-/

namespace OLTile

/-- JS Math.round: rounds to the nearest integer, halves toward positive
infinity.  Math.round (t) = floor (t + 0.5). -/
def jsRound (q : ℚ) : ℤ := ⌊q + 1 / 2⌋

/-- The inclusive integer range [lo, hi] as a list; empty when hi < lo.
Models the for (x = minX; x <= maxX; ++x) iteration pattern. -/
def intRange (lo hi : ℤ) : List ℤ :=
  (List.range (hi + 1 - lo).toNat).map (fun i => lo + (i : ℤ))

/-- Tile lifecycle states, from ol/TileState.js (IDLE, LOADING, LOADED,
ERROR, EMPTY). -/
inductive TileState where
  | idle
  | loading
  | loaded
  | error
  | empty
deriving DecidableEq

/-- The decoded image payload of a tile (width and height in pixels, kept
rational because they are combined with a rational gutter). -/
structure Image where
  width : ℚ
  height : ℚ
deriving DecidableEq

/-- The per-tile data consumed by the renderer: coordinate (z, x, y),
lifecycle state, optional decoded image, and transition bookkeeping for the
single renderer consumer (duration, start timestamp, ended flag). -/
structure TileCore where
  coord : ℤ × ℤ × ℤ
  state : TileState
  image : Option Image
  transitionDuration : Option ℚ
  transitionStart : Option ℚ
  transitionEnded : Bool
deriving DecidableEq

/-- A tile together with its interim chain (previously loaded tiles for the
same footprint, nearest first).  The Tile class itself is outside src/. -/
structure Tile where
  core : TileCore
  interims : List TileCore
deriving DecidableEq

/-- Clamp a rational into [0, 1]. -/
def clampQ (q : ℚ) : ℚ :=
  if q < 0 then 0 else if 1 < q then 1 else q

/-- Modelled from the spec: the Tile class transition (alpha) function of
section 4.2, which is not under src/: alpha =
clamp ((now - transitionStartTime) / transitionDuration, 0, 1); if no
transition is active (no duration, or the transition has been ended), alpha
is 1; a transition with no recorded start is treated as starting now. -/
def Tile.getAlpha (t : Tile) (time : ℚ) : ℚ :=
  match t.core.transitionDuration with
  | none => 1
  | some d =>
    if t.core.transitionEnded then 1
    else
      let s := t.core.transitionStart.getD time
      clampQ ((time - s) / d)

/-- Modelled from the spec: Tile.inTransition for the renderer consumer
(the Tile class is not under src/): a tile is in transition when it has a
transition duration and the transition has not been ended. -/
def Tile.inTransition (t : Tile) : Bool :=
  t.core.transitionDuration.isSome && !t.core.transitionEnded

/-- Modelled from the spec: Tile.endTransition clears the transition for
the renderer consumer (transition bookkeeping only). -/
def Tile.endTransition (t : Tile) : Tile :=
  { t with core := { t.core with transitionEnded := true } }

/-- Modelled from the spec: Tile.getInterimTile walks the interim chain and
returns the nearest previously LOADED tile, or the tile itself when the
chain holds none. -/
def Tile.getInterimTile (t : Tile) : Tile :=
  match t.interims.find? (fun c => decide (c.state = TileState.loaded)) with
  | some c => ⟨c, []⟩
  | none => t

/-- CanvasTileLayerRenderer.isDrawableTile (TileLayer.js lines 72-79): a
tile is drawable iff its state is LOADED, or EMPTY, or ERROR while the
layer's useInterimTilesOnError flag is off. -/
def isDrawableTile (useInterimTilesOnError : Bool) (t : Tile) : Bool :=
  decide (t.core.state = TileState.loaded) ||
    decide (t.core.state = TileState.empty) ||
      (decide (t.core.state = TileState.error) && !useInterimTilesOnError)

/-- CanvasTileLayerRenderer.getTile (TileLayer.js lines 89-106), with the
tileSource.getTile call factored out: takes the tile the source returned,
the layer's useInterimTilesOnError flag, the layer's preload value and the
current newTiles flag.  Returns (source tile after the possible setState
mutation, the tile actually returned (possibly an interim tile), the
updated newTiles flag).  An ERROR tile is set to LOADED when interim tiles
are not used on error; otherwise, when preload is positive, the newTiles
flag is raised. -/
def getTile (t : Tile) (useInterimTilesOnError : Bool) (preload : ℕ)
    (newTiles : Bool) : Tile × Tile × Bool :=
  let p :=
    if t.core.state = TileState.error then
      if useInterimTilesOnError = false then
        ({ t with core := { t.core with state := TileState.loaded } }, newTiles)
      else if 0 < preload then (t, true)
      else (t, newTiles)
    else (t, newTiles)
  let ret := if isDrawableTile useInterimTilesOnError p.1 = true then p.1
    else p.1.getInterimTile
  (p.1, ret, p.2)

/-- An inclusive tile range at one zoom (ol/TileRange.js field order). -/
structure TileRange where
  minX : ℤ
  maxX : ℤ
  minY : ℤ
  maxY : ℤ
deriving DecidableEq

/-- A tile range is empty when an axis is inverted. -/
def TileRange.isEmptyRange (r : TileRange) : Bool :=
  decide (r.maxX < r.minX) || decide (r.maxY < r.minY)

/-- A geographic extent [minX, minY, maxX, maxY] (ol/extent.js layout). -/
structure Extent where
  minX : ℚ
  minY : ℚ
  maxX : ℚ
  maxY : ℚ
deriving DecidableEq

/-- ol/extent.js getIntersection: componentwise max of mins and min of
maxs (external helper consumed by renderFrame line 141). -/
def getIntersectionE (a b : Extent) : Extent :=
  ⟨max a.minX b.minX, max a.minY b.minY, min a.maxX b.maxX, min a.maxY b.maxY⟩

/-- The per-frame view of the tile source's cache: a base mapping from
coordinates to tiles plus the in-frame mutations (setState) layered on
top, most recent first. -/
structure TileStore where
  base : ℤ → ℤ → ℤ → Tile
  over : List ((ℤ × ℤ × ℤ) × Tile)

/-- Look a tile up, preferring in-frame mutations. -/
def TileStore.get (s : TileStore) (z x y : ℤ) : Tile :=
  match s.over.find? (fun kv => decide (kv.1 = (z, x, y))) with
  | some kv => kv.2
  | none => s.base z x y

/-- Record an in-frame mutation of the tile at (z, x, y). -/
def TileStore.set (s : TileStore) (z x y : ℤ) (t : Tile) : TileStore :=
  ⟨s.base, ((z, x, y), t) :: s.over⟩

/-- tilesToDrawByZ: zoom level to (tile-coordinate key to selected tile),
both in insertion order, rebuilt every frame. -/
abbrev TilesByZ := List (ℤ × List ((ℤ × ℤ × ℤ) × Tile))

/-- Set a key in a coordinate-keyed tile map (replace or append). -/
def setKey (l : List ((ℤ × ℤ × ℤ) × Tile)) (k : ℤ × ℤ × ℤ) (t : Tile) :
    List ((ℤ × ℤ × ℤ) × Tile) :=
  match l with
  | [] => [(k, t)]
  | kv :: rest => if kv.1 = k then (k, t) :: rest else kv :: setKey rest k t

/-- tilesToDrawByZ registration: tiles[zoom][tileCoord.toString()] = tile,
creating the zoom entry when absent. -/
def registerTile (acc : TilesByZ) (zoom : ℤ) (t : Tile) : TilesByZ :=
  match acc with
  | [] => [(zoom, [(t.core.coord, t)])]
  | zm :: rest =>
    if zm.1 = zoom then (zm.1, setKey zm.2 t.core.coord t) :: rest
    else zm :: registerTile rest zoom t

/-- Whether every coordinate of a range holds a LOADED tile. -/
def rangeAllLoaded (s : TileStore) (zoom : ℤ) (r : TileRange) : Bool :=
  (intRange r.minX r.maxX).all fun x =>
    (intRange r.minY r.maxY).all fun y =>
      decide ((s.get zoom x y).core.state = TileState.loaded)

/-- Modelled from the spec: the loaded-tile finder produced by
createLoadedTileFinder in the base layer renderer (not under src/).  It
scans a tile range at one zoom, registers every loaded tile it finds into
the accumulator, and reports whether the range is fully covered by loaded
tiles. -/
def findLoadedTiles (s : TileStore) (zoom : ℤ) (r : TileRange)
    (acc : TilesByZ) : Bool × TilesByZ :=
  let acc1 := (intRange r.minX r.maxX).foldl (fun a x =>
    (intRange r.minY r.maxY).foldl (fun a y =>
      let t := s.get zoom x y
      if t.core.state = TileState.loaded then registerTile a zoom t else a) a) acc
  (rangeAllLoaded s zoom r, acc1)

/-- Modelled from the spec: the walk driven by
tileGrid.forEachTileCoordParentTileRange (external), fed the parent tile
ranges from z-1 down to zoom 0; each level is scanned by the loaded-tile
finder and the walk stops at the first fully covered level. -/
def parentWalk (s : TileStore) (ranges : List (ℤ × TileRange))
    (acc : TilesByZ) : TilesByZ :=
  match ranges with
  | [] => acc
  | zr :: rest =>
    let fl := findLoadedTiles s zr.1 zr.2 acc
    if fl.1 then fl.2 else parentWalk s rest fl.2

/-- The tile grid consumed by the renderer (external, ol/tilegrid):
resolution/zoom conversion, extent-to-range conversion, tile extents,
child tile ranges (none above the grid's maximum zoom) and the parent tile
ranges from z-1 down to zoom 0 visited by
forEachTileCoordParentTileRange. -/
structure TileGridM where
  zForResolution : ℚ → ℤ → ℤ
  resolutionAt : ℤ → ℚ
  tileRangeForExtentAndZ : Extent → ℤ → TileRange
  tileCoordForCoordAndZ : ℚ × ℚ → ℤ → ℤ × ℤ × ℤ
  tileCoordExtentOf : ℤ × ℤ × ℤ → Extent
  childTileRange : ℤ × ℤ × ℤ → Option TileRange
  parentRanges : ℤ × ℤ × ℤ → List (ℤ × TileRange)

/-- The tile source consumed by the renderer (external): the cached tiles,
a revision counter, pixel-ratio and pixel-size data, the gutter, and
whether the source is fully solid (getOpaque: no transparent pixels). -/
structure TileSourceM where
  base : ℤ → ℤ → ℤ → Tile
  revision : ℕ
  tilePixelRatioQ : ℚ → ℚ
  tilePixelSizeAt : ℤ → ℚ × ℚ
  gutterQ : ℚ
  solid : Bool

/-- The tile layer the renderer draws (source plus the two policy knobs
read by the renderer). -/
structure LayerM where
  source : TileSourceM
  useInterimTilesOnError : Bool
  preload : ℕ

/-- The view part of the frame state: center, resolution, rotation. -/
structure ViewStateM where
  center : ℚ × ℚ
  resolution : ℚ
  rotation : ℚ

/-- The per-frame state consumed by renderFrame: view state, device pixel
ratio, viewport size, visible extent, wall-clock time, animate flag. -/
structure FrameStateM where
  view : ViewStateM
  pixelRatioQ : ℚ
  sizeW : ℚ
  sizeH : ℚ
  extent : Extent
  time : ℚ
  animate : Bool

/-- The per-layer render state: optional clip extent and opacity. -/
structure LayerStateM where
  extentOpt : Option Extent
  opacity : ℚ

/-- The real-valued functions of JS Math that have no exact rational
counterpart, passed in as parameters (sin, cos, sqrt). -/
structure MathFns where
  cosF : ℚ → ℚ
  sinF : ℚ → ℚ
  sqrtF : ℚ → ℚ

/-- prepareFrame (TileLayer.js lines 111-113): unconditionally ready. -/
def prepareFrame (_fs : FrameStateM) (_ls : LayerStateM) : Bool :=
  true

/-- The observable outcome of the per-coordinate selection step: the
updated tilesToDrawByZ, the newTiles flag, and whether the child-coverage
check ran, whether it reported coverage, and whether the ancestor walk
ran. -/
structure SelectOut where
  tilesByZ : TilesByZ
  newTiles : Bool
  checkedChildren : Bool
  covered : Bool
  walkedParents : Bool

/-- The body of the per-coordinate selection loop after the getTile call
(TileLayer.js lines 180-204): register a drawable LOADED tile (raising
newTiles when it is new or in transition), skip the fallback search when
the tile is drawable with alpha 1, otherwise check the child tile range
(when one exists) for full loaded coverage and, when not covered, walk the
parent tile ranges. -/
def selectBody (grid : TileGridM) (s : TileStore) (useInterimTilesOnError : Bool)
    (prevRendered : List Tile) (time : ℚ) (z : ℤ) (tile : Tile)
    (acc : TilesByZ) (nt : Bool) : SelectOut :=
  let drawable := isDrawableTile useInterimTilesOnError tile
  let isLoaded := drawable && decide (tile.core.state = TileState.loaded)
  let acc1 := if isLoaded then registerTile acc z tile else acc
  let nt1 := if isLoaded then
      nt || (tile.inTransition || !(decide (tile ∈ prevRendered))) else nt
  if drawable && decide (Tile.getAlpha tile time = 1) then
    ⟨acc1, nt1, false, false, false⟩
  else
    match grid.childTileRange tile.core.coord with
    | some cr =>
      let fl := findLoadedTiles s (z + 1) cr acc1
      if fl.1 then ⟨fl.2, nt1, true, true, false⟩
      else ⟨parentWalk s (grid.parentRanges tile.core.coord) fl.2, nt1, true, false, true⟩
    | none =>
      ⟨parentWalk s (grid.parentRanges tile.core.coord) acc1, nt1, false, false, true⟩

/-- The running state of the selection loop: the tile store view (with
in-frame mutations), the tilesToDrawByZ accumulator, the newTiles flag. -/
structure SelState where
  store : TileStore
  tiles : TilesByZ
  newTiles : Bool

/-- One iteration of the selection loop (TileLayer.js lines 179-204):
fetch the tile through getTile (persisting its possible state mutation)
then run the selection body on the returned tile. -/
def selectCoord (grid : TileGridM) (layer : LayerM) (prevRendered : List Tile)
    (time : ℚ) (z x y : ℤ) (st : SelState) : SelState :=
  let g := getTile (st.store.get z x y) layer.useInterimTilesOnError
    layer.preload st.newTiles
  let store1 := st.store.set z x y g.1
  let out := selectBody grid store1 layer.useInterimTilesOnError prevRendered
    time z g.2.1 st.tiles g.2.2
  ⟨store1, out.tilesByZ, out.newTiles⟩

/-- The full selection loop (TileLayer.js lines 176-206) over the ideal
zoom's tile range, starting from the fresh per-frame state
(tilesToDrawByZ = [z: empty], newTiles = false). -/
def selectPhase (grid : TileGridM) (layer : LayerM) (prevRendered : List Tile)
    (time : ℚ) (z : ℤ) (tr : TileRange) : SelState :=
  (intRange tr.minX tr.maxX).foldl (fun st x =>
    (intRange tr.minY tr.maxY).foldl (fun st y =>
      selectCoord grid layer prevRendered time z x y st) st)
    ⟨⟨layer.source.base, []⟩, [(z, [])], false⟩

/-- The ideal zoom for the frame: tileGrid.getZForResolution at the view
resolution with the renderer's zDirection bias (TileLayer.js line 136). -/
def idealZ (grid : TileGridM) (fs : FrameStateM) (zDirection : ℤ) : ℤ :=
  grid.zForResolution fs.view.resolution zDirection

/-- The frame extent after the optional layer-extent clip
(TileLayer.js lines 138-142). -/
def frameExtent (fs : FrameStateM) (ls : LayerStateM) : Extent :=
  match ls.extentOpt with
  | some e => getIntersectionE fs.extent e
  | none => fs.extent

/-- The tile range at the ideal zoom covering the frame extent
(TileLayer.js line 164). -/
def frameTileRange (grid : TileGridM) (fs : FrameStateM) (ls : LayerStateM)
    (zDirection : ℤ) : TileRange :=
  grid.tileRangeForExtentAndZ (frameExtent fs ls) (idealZ grid fs zDirection)

/-- The zoom-ordering comparator of renderFrame (TileLayer.js lines
245-253): the ideal zoom compares greater than everything (including
itself), all other zooms compare numerically. -/
def jsCmp (z a b : ℤ) : ℤ :=
  if a = z then 1
  else if b = z then -1
  else if a > b then 1
  else if a < b then -1
  else 0

/-- The at-most relation induced by the renderFrame comparator: a sorts no
later than b when the comparator is nonpositive. -/
def zLe (z a b : ℤ) : Bool :=
  decide (jsCmp z a b ≤ 0)

/-- Plain numeric at-most on zoom levels. -/
def numLe (a b : ℤ) : Bool :=
  decide (a ≤ b)

/-- Stable insertion of x before the first element it sorts no later
than. -/
def cmpInsert (le : ℤ → ℤ → Bool) (x : ℤ) : List ℤ → List ℤ
  | [] => [x]
  | y :: ys => if le x y then x :: y :: ys else y :: cmpInsert le x ys

/-- Stable comparator sort (models Array.prototype.sort, whose result is
the comparator-consistent stable order). -/
def cmpSort (le : ℤ → ℤ → Bool) : List ℤ → List ℤ
  | [] => []
  | x :: xs => cmpInsert le x (cmpSort le xs)

/-- A 2D affine transform [a, b, c, d, e, f] (ol/transform.js layout). -/
structure Transform where
  a : ℚ
  b : ℚ
  c : ℚ
  d : ℚ
  e : ℚ
  f : ℚ
deriving DecidableEq

/-- Modelled from the spec: ol/transform.js compose (external transform
utility): translate by (dx1, dy1), rotate by angle, scale by (sx, sy),
translate by (dx2, dy2). -/
def composeT (m : MathFns) (dx1 dy1 sx sy angle dx2 dy2 : ℚ) : Transform :=
  let s := m.sinF angle
  let c := m.cosF angle
  ⟨sx * c, sy * s, -sx * s, sy * c,
    dx2 * sx * c - dy2 * sx * s + dx1,
    dx2 * sy * s + dy2 * sy * c + dy1⟩

/-- Modelled from the spec: ol/transform.js apply on a coordinate pair. -/
def applyT (t : Transform) (p : ℚ × ℚ) : ℚ × ℚ :=
  (t.a * p.1 + t.c * p.2 + t.e, t.b * p.1 + t.d * p.2 + t.f)

/-- The determinant of an affine transform. -/
def determinantT (t : Transform) : ℚ :=
  t.a * t.d - t.b * t.c

/-- Modelled from the spec: ol/transform.js makeInverse / invert (the
inverse affine transform; degenerate transforms yield the zero map because
rational division by zero is zero). -/
def invertT (t : Transform) : Transform :=
  let det := determinantT t
  ⟨t.d / det, -t.b / det, -t.c / det, t.a / det,
    (t.c * t.f - t.d * t.e) / det, (t.b * t.e - t.a * t.f) / det⟩

/-- The drawing-context state threaded through tile draws. -/
structure Ctx where
  globalAlpha : ℚ
deriving DecidableEq

/-- The canvas operations the renderer issues, recorded in order.  The
drawImage operation also records the effective global alpha it is drawn
with. -/
inductive CanvasOp where
  | clearRect (x y w h : ℤ)
  | drawImage (alpha sx sy sw sh : ℚ) (dx dy dw dh : ℤ)
  | save
  | restore
  | setGlobalAlpha (a : ℚ)
  | resize (w h : ℤ)
  | clipToExtent
  | restoreClip
  | preRender
  | postRender
  | managePyramid
  | expireCache
deriving DecidableEq

/-- Whether an operation is a clearRect. -/
def isClearOp : CanvasOp → Bool
  | CanvasOp.clearRect _ _ _ _ => true
  | _ => false

/-- Whether an operation is a drawImage. -/
def isDrawImageOp : CanvasOp → Bool
  | CanvasOp.drawImage _ _ _ _ _ _ _ _ _ => true
  | _ => false

/-- The outcome of drawTileImage: the operations issued, the context after
the call, the frame animate flag, and the tile after possible transition
bookkeeping. -/
structure DrawResult where
  ops : List CanvasOp
  ctx : Ctx
  animate : Bool
  tile : Tile
deriving DecidableEq

/-- drawTileImage (TileLayer.js lines 328-356): return immediately when
the tile has no image; otherwise compute alpha (transition alpha when the
transition argument is set, else 1), clear the destination rectangle when
alpha is 1 and the source is not fully solid, draw the image (excluding
the gutter) under a temporarily set global alpha when it differs from the
context's, then either flag the frame as animating (alpha below 1) or end
the tile's transition (alpha 1 under a transition draw). -/
def drawTileImage (t : Tile) (time : ℚ) (x y w h : ℤ) (gutter : ℚ)
    (transition : Bool) (srcSolid : Bool) (ctx : Ctx) (animate0 : Bool) :
    DrawResult :=
  match t.core.image with
  | none => ⟨[], ctx, animate0, t⟩
  | some img =>
    let alpha := if transition then Tile.getAlpha t time else 1
    let ops1 := if alpha = 1 ∧ srcSolid = false then
        [CanvasOp.clearRect x y w h] else []
    let alphaChanged := decide (alpha ≠ ctx.globalAlpha)
    let ops2 := if alphaChanged then
        [CanvasOp.save, CanvasOp.setGlobalAlpha alpha] else []
    let opsD := [CanvasOp.drawImage alpha gutter gutter
        (img.width - 2 * gutter) (img.height - 2 * gutter) x y w h]
    let ops3 := if alphaChanged then [CanvasOp.restore] else []
    let animate1 := if alpha ≠ 1 then true else animate0
    let t1 := if alpha = 1 ∧ transition = true then t.endTransition else t
    ⟨ops1 ++ ops2 ++ opsD ++ ops3, ctx, animate1, t1⟩

/-- The float destination coordinate of a tile edge (TileLayer.js lines
275 and 277): the canvas origin of the level minus the tile's offset from
the level's origin tile times the per-level step. -/
def destFloatX (originC : ℚ) (originTileC tileC : ℤ) (step : ℚ) : ℚ :=
  originC - ((originTileC - tileC : ℤ) : ℚ) * step

/-- The rounded left (or top) destination edge of a tile (TileLayer.js
lines 279-280). -/
def destLeft (originC : ℚ) (originTileC tileC : ℤ) (step : ℚ) : ℤ :=
  jsRound (destFloatX originC originTileC tileC step)

/-- The rounded right (or bottom) destination edge of a tile
(TileLayer.js lines 276 and 278): the float edge plus the step, rounded
independently. -/
def destRight (originC : ℚ) (originTileC tileC : ℤ) (step : ℚ) : ℤ :=
  jsRound (destFloatX originC originTileC tileC step + step)

/-- The running state of the drawing loop: operations issued so far, the
drawing context, the animate flag, the rendered-tiles list and the
used-tiles accumulator. -/
structure DrawState where
  ops : List CanvasOp
  ctx : Ctx
  animate : Bool
  renderedTiles : List Tile
  usedTiles : List (ℤ × ℤ × ℤ)

/-- The desired canvas size in device pixels (TileLayer.js lines 144-153):
the viewport size times the tile pixel ratio, rounded; under rotation a
square canvas sized to the rounded bounding diagonal. -/
def canvasSizeOf (m : MathFns) (src : TileSourceM) (fs : FrameStateM) :
    ℤ × ℤ :=
  let tpr := src.tilePixelRatioQ fs.pixelRatioQ
  let w := jsRound (fs.sizeW * tpr)
  let h := jsRound (fs.sizeH * tpr)
  if fs.view.rotation ≠ 0 then
    let s := jsRound (m.sqrtF (((w * w + h * h : ℤ) : ℚ)))
    (s, s)
  else (w, h)

/-- The world extent covered by the canvas (TileLayer.js lines 155-162). -/
def canvasExtentOf (m : MathFns) (grid : TileGridM) (src : TileSourceM)
    (fs : FrameStateM) (zDirection : ℤ) : Extent :=
  let tileRes := grid.resolutionAt (idealZ grid fs zDirection)
  let tpr := src.tilePixelRatioQ fs.pixelRatioQ
  let wh := canvasSizeOf m src fs
  let dx := tileRes * (wh.1 : ℚ) / 2 / tpr
  let dy := tileRes * (wh.2 : ℚ) / 2 / tpr
  ⟨fs.view.center.1 - dx, fs.view.center.2 - dy,
    fs.view.center.1 + dx, fs.view.center.2 + dy⟩

/-- The canvas resize-or-clear step (TileLayer.js lines 229-234). -/
def clearOps (prevW prevH w h : ℤ) : List CanvasOp :=
  if w ≠ prevW ∨ h ≠ prevH then [CanvasOp.resize w h]
  else [CanvasOp.clearRect 0 0 w h]

/-- The optional clip to the layer extent (TileLayer.js lines 236-238). -/
def clipOps (e : Option Extent) : List CanvasOp :=
  match e with
  | some _ => [CanvasOp.clipToExtent]
  | none => []

/-- The frame-closing operations (TileLayer.js lines 295-303): pyramid
management, cache-expiry scheduling, the post-render hook, and the clip
restore when a layer extent was clipped. -/
def endOps (e : Option Extent) : List CanvasOp :=
  [CanvasOp.managePyramid, CanvasOp.expireCache, CanvasOp.postRender] ++
    (match e with
     | some _ => [CanvasOp.restoreClip]
     | none => [])

/-- The tile map registered for one zoom, empty when the zoom is absent. -/
def lookupZ (acc : TilesByZ) (zoom : ℤ) : List ((ℤ × ℤ × ℤ) × Tile) :=
  match acc.find? (fun zm => decide (zm.1 = zoom)) with
  | some zm => zm.2
  | none => []

/-- The drawing loop of renderFrame (TileLayer.js lines 244-288): sort the
registered zooms with the ideal-zoom-last comparator, then for each zoom
compute the per-level step and origin and draw every registered tile at
its rounded destination rectangle, accumulating rendered and used
tiles. -/
def drawPhase (grid : TileGridM) (src : TileSourceM)
    (fs : FrameStateM) (z : ℤ) (tileRes tpr canvasScale : ℚ)
    (canvasExtent : Extent) (tempT : Transform) (tiles : TilesByZ)
    (d0 : DrawState) : DrawState :=
  let zs := cmpSort (zLe z) (tiles.map (fun zm => zm.1))
  zs.foldl (fun d currentZ =>
    let pxSize := src.tilePixelSizeAt currentZ
    let curRes := grid.resolutionAt currentZ
    let curScale := curRes / tileRes
    let ddx := pxSize.1 * curScale * canvasScale
    let ddy := pxSize.2 * curScale * canvasScale
    let originTC := grid.tileCoordForCoordAndZ
      (canvasExtent.minX, canvasExtent.maxY) currentZ
    let originTE := grid.tileCoordExtentOf originTC
    let origin := applyT tempT
      (((jsRound (tpr * (originTE.minX - canvasExtent.minX) / tileRes) : ℤ) : ℚ),
       ((jsRound (tpr * (canvasExtent.maxY - originTE.maxY) / tileRes) : ℤ) : ℚ))
    let tileGutter := tpr * src.gutterQ
    (lookupZ tiles currentZ).foldl (fun d kv =>
      let tile := kv.2
      let tc := tile.core.coord
      let x := destLeft origin.1 originTC.2.1 tc.2.1 ddx
      let nextX := destRight origin.1 originTC.2.1 tc.2.1 ddx
      let y := destLeft origin.2 originTC.2.2 tc.2.2 ddy
      let nextY := destRight origin.2 originTC.2.2 tc.2.2 ddy
      let w := nextX - x
      let h := nextY - y
      let r := drawTileImage tile fs.time x y w h tileGutter
        (decide (z = currentZ)) src.solid d.ctx d.animate
      ⟨d.ops ++ r.ops, r.ctx, r.animate,
        d.renderedTiles ++ [r.tile], d.usedTiles ++ [tc]⟩) d) d0

/-- Everything renderFrame leaves behind: the canvas (size, applied style
opacity and transform), the rendered tiles, the persisted bookkeeping
(renderedRevision, renderedResolution, renderedExtent), the issued
operations, the animate and newTiles flags and the used tiles. -/
structure RenderResult where
  renderedTiles : List Tile
  renderedRevision : ℕ
  renderedResolution : ℚ
  renderedExtent : Extent
  canvasW : ℤ
  canvasH : ℤ
  ops : List CanvasOp
  animate : Bool
  newTiles : Bool
  usedTiles : List (ℤ × ℤ × ℤ)
  styleOpacity : ℚ
  pixelT : Transform
  invPixelT : Transform

/-- The renderer state carried over from the previous frame: the rendered
tiles of the last frame, the canvas size, the context and the canvas
style opacity. -/
structure RendererPrev where
  renderedTiles : List Tile
  canvasW : ℤ
  canvasH : ℤ
  ctx : Ctx
  styleOpacity : ℚ

/-- renderFrame (TileLayer.js lines 123-316): compute the ideal zoom, the
canvas size and extent and the ideal-zoom tile range; run the selection
loop; build the pixel and tile transforms; resize or clear the canvas,
optionally clip to the layer extent, run the pre-render hook; draw the
selected tiles zoom by zoom (ideal zoom last); then persist
renderedRevision, renderedResolution and renderedExtent, manage the tile
pyramid, schedule cache expiry, run the post-render hook, restore the
clip, and apply the layer opacity and the pixel transform to the canvas
style. -/
def renderFrameModel (m : MathFns) (grid : TileGridM) (layer : LayerM)
    (fs : FrameStateM) (ls : LayerStateM) (prev : RendererPrev)
    (zDirection : ℤ) : RenderResult :=
  let src := layer.source
  let z := idealZ grid fs zDirection
  let tileRes := grid.resolutionAt z
  let tpr := src.tilePixelRatioQ fs.pixelRatioQ
  let wh := canvasSizeOf m src fs
  let canvasExtent := canvasExtentOf m grid src fs zDirection
  let tileRange := frameTileRange grid fs ls zDirection
  let sel := selectPhase grid layer prev.renderedTiles fs.time z tileRange
  let canvasScale := tileRes / fs.view.resolution
  let pixelT := composeT m (fs.sizeW / 2) (fs.sizeH / 2) (1 / tpr) (1 / tpr)
    fs.view.rotation (-((wh.1 : ℚ) / 2)) (-((wh.2 : ℚ) / 2))
  let invPixelT := invertT pixelT
  let tempT := composeT m ((wh.1 : ℚ) / 2) ((wh.2 : ℚ) / 2) canvasScale
    canvasScale 0 (-((wh.1 : ℚ) / 2)) (-((wh.2 : ℚ) / 2))
  let ops1 := clearOps prev.canvasW prev.canvasH wh.1 wh.2 ++
    clipOps ls.extentOpt ++ [CanvasOp.preRender]
  let d0 : DrawState := ⟨ops1, prev.ctx, fs.animate, [], []⟩
  let dEnd := drawPhase grid src fs z tileRes tpr canvasScale canvasExtent
    tempT sel.tiles d0
  { renderedTiles := dEnd.renderedTiles,
    renderedRevision := src.revision,
    renderedResolution := tileRes,
    renderedExtent := canvasExtent,
    canvasW := wh.1,
    canvasH := wh.2,
    ops := dEnd.ops ++ endOps ls.extentOpt,
    animate := dEnd.animate,
    newTiles := sel.newTiles,
    usedTiles := dEnd.usedTiles,
    styleOpacity := ls.opacity,
    pixelT := pixelT,
    invPixelT := invPixelT }

/-- A concrete ERROR tile with no image and no transition. -/
def errTileC : Tile :=
  ⟨⟨(1, 0, 0), TileState.error, none, none, none, false⟩, []⟩

/-- A concrete LOADED tile with a 256-pixel image and no transition. -/
def tileLoadedC : Tile :=
  ⟨⟨(0, 0, 0), TileState.loaded, some ⟨256, 256⟩, none, none, false⟩, []⟩

/-- A concrete LOADED tile mid-transition: duration 2, started at time 0. -/
def tileMidC : Tile :=
  ⟨⟨(0, 0, 0), TileState.loaded, some ⟨256, 256⟩, some 2, some 0, false⟩, []⟩

/-- A concrete IDLE tile. -/
def tileIdleC : Tile :=
  ⟨⟨(2, 1, 1), TileState.idle, none, none, none, false⟩, []⟩

/-- A store holding only idle tiles. -/
def storeIdleC : TileStore :=
  ⟨fun _ _ _ => tileIdleC, []⟩

/-- A degenerate concrete grid returning a fixed tile range at every zoom,
with no child ranges and no parent levels. -/
def gridConstC (r : TileRange) : TileGridM where
  zForResolution := fun _ _ => 0
  resolutionAt := fun _ => 1
  tileRangeForExtentAndZ := fun _ _ => r
  tileCoordForCoordAndZ := fun _ zz => (zz, 0, 0)
  tileCoordExtentOf := fun _ => ⟨0, 0, 1, 1⟩
  childTileRange := fun _ => none
  parentRanges := fun _ => []

/-- The degenerate grid with a child tile range at every coordinate. -/
def gridChildC : TileGridM :=
  { gridConstC ⟨0, 0, 0, 0⟩ with childTileRange := fun _ => some ⟨0, 1, 0, 1⟩ }

/-- A concrete source whose cache holds the given tile everywhere. -/
def srcOfC (t : Tile) : TileSourceM where
  base := fun _ _ _ => t
  revision := 7
  tilePixelRatioQ := fun q => q
  tilePixelSizeAt := fun _ => (256, 256)
  gutterQ := 0
  solid := true

/-- A concrete layer over srcOfC with interim-on-error off and no
preload. -/
def layerOfC (t : Tile) : LayerM :=
  ⟨srcOfC t, false, 0⟩

/-- A concrete frame state: unrotated unit-resolution view centered at the
origin, with the given viewport size and extent, at time 0. -/
def fsOfC (w h : ℚ) (e : Extent) : FrameStateM where
  view := ⟨(0, 0), 1, 0⟩
  pixelRatioQ := 1
  sizeW := w
  sizeH := h
  extent := e
  time := 0
  animate := false

/-- A layer state with no clip extent and full opacity. -/
def lsNoneC : LayerStateM :=
  ⟨none, 1⟩

/-- A previous renderer state: nothing rendered, zero-size canvas. -/
def prevEmptyC : RendererPrev :=
  ⟨[], 0, 0, ⟨1⟩, 1⟩

/-- Trigonometry for the unrotated concrete frames: cos 1, sin 0. -/
def mIdC : MathFns :=
  ⟨fun _ => 1, fun _ => 0, fun _ => 0⟩

theorem intRange_nil (lo hi : ℤ) (h : hi < lo) : intRange lo hi = [] := by
  unfold intRange
  have h0 : (hi + 1 - lo).toNat = 0 := by omega
  simp [h0]

theorem foldl_self {α β : Type _} (l : List α) (s : β) :
    l.foldl (fun s _ => s) s = s := by
  induction l generalizing s with
  | nil => rfl
  | cons x xs ih => simp [ih s]

/-- Claim C1: seamless-tiling invariant of the destination-rectangle
computation in renderFrame: for any two horizontally (or vertically)
adjacent tiles at the same zoom, the rounded right (resp. bottom) edge of
the first tile, Math.round (floatX + dx), equals the independently rounded
left (resp. top) edge of the second, Math.round (floatX of the next
coordinate), for every origin and every per-level step (including
non-integer steps), so widths and heights derived as differences of
rounded edges leave no gap or overlap.  Arithmetic is modelled exactly
over the rationals. -/
theorem seamlessAdjacentEdges (originC : ℚ) (originTileC tileC : ℤ)
    (step : ℚ) :
    destRight originC originTileC tileC step
      = destLeft originC originTileC (tileC + 1) step := by
  unfold destRight destLeft
  congr 1
  unfold destFloatX
  push_cast
  ring

/-- Claim C3: the isDrawableTile truth table: LOADED and EMPTY are
drawable; ERROR is drawable exactly when useInterimTilesOnError is off;
LOADING and IDLE are never drawable. -/
theorem isDrawableTileTruthTable (u : Bool) (t : Tile) :
    (t.core.state = TileState.loaded → isDrawableTile u t = true)
    ∧ (t.core.state = TileState.empty → isDrawableTile u t = true)
    ∧ (t.core.state = TileState.error ∧ u = false → isDrawableTile u t = true)
    ∧ (t.core.state = TileState.error ∧ u = true → isDrawableTile u t = false)
    ∧ (t.core.state = TileState.loading → isDrawableTile u t = false)
    ∧ (t.core.state = TileState.idle → isDrawableTile u t = false) := by
  rcases t with ⟨⟨c, st, i, td, ts, te⟩, ints⟩
  cases st <;> cases u <;> simp [isDrawableTile]

/-- Witness for C3: the truth table applied to a concrete LOADED tile. -/
theorem isDrawableTileTruthTableWitness :
    isDrawableTile false tileLoadedC = true :=
  (isDrawableTileTruthTable false tileLoadedC).1 rfl

/-- Claim C9: prepareFrame reports ready for every frame state and layer
state, without inspecting either. -/
theorem prepareFrameAlwaysTrue (fs : FrameStateM) (ls : LayerStateM) :
    prepareFrame fs ls = true :=
  rfl

theorem mem_cmpInsert {le : ℤ → ℤ → Bool} {a x : ℤ} {l : List ℤ} :
    a ∈ cmpInsert le x l ↔ a = x ∨ a ∈ l := by
  induction l with
  | nil => simp [cmpInsert]
  | cons y ys ih =>
    by_cases h : le x y = true
    · simp [cmpInsert, h]
    · simp only [cmpInsert, h]
      simp [ih]
      tauto

theorem mem_cmpSort {le : ℤ → ℤ → Bool} {a : ℤ} {l : List ℤ} :
    a ∈ cmpSort le l ↔ a ∈ l := by
  induction l with
  | nil => simp [cmpSort]
  | cons x xs ih =>
    simp [cmpSort, mem_cmpInsert, ih]

theorem zLe_z_left (z b : ℤ) : zLe z z b = false := by
  simp [zLe, jsCmp]

theorem zLe_of_ne {z a b : ℤ} (ha : a ≠ z) (hb : b ≠ z) :
    zLe z a b = numLe a b := by
  unfold zLe numLe jsCmp
  rw [if_neg ha, if_neg hb]
  by_cases h1 : a > b
  · have h2 : ¬ a ≤ b := by omega
    simp [h1, h2]
  · by_cases h3 : a < b
    · have h4 : a ≤ b := by omega
      simp [h1, h3, h4]
    · have h5 : a ≤ b := by omega
      simp [h1, h3, h5]

theorem cmpInsert_z_last (z : ℤ) (l : List ℤ) :
    cmpInsert (zLe z) z l = l ++ [z] := by
  induction l with
  | nil => rfl
  | cons y ys ih =>
    simp [cmpInsert, zLe_z_left, ih]

theorem cmpInsert_zfree {z x : ℤ} {l : List ℤ} (hx : x ≠ z)
    (hl : ∀ y ∈ l, y ≠ z) :
    cmpInsert (zLe z) x l = cmpInsert numLe x l := by
  induction l with
  | nil => rfl
  | cons y ys ih =>
    have hy : y ≠ z := hl y (by simp)
    have hys : ∀ y ∈ ys, y ≠ z := fun w hw => hl w (by simp [hw])
    simp only [cmpInsert, zLe_of_ne hx hy, ih hys]

theorem cmpSort_zfree {z : ℤ} {l : List ℤ} (hl : ∀ y ∈ l, y ≠ z) :
    cmpSort (zLe z) l = cmpSort numLe l := by
  induction l with
  | nil => rfl
  | cons x xs ih =>
    have hx : x ≠ z := hl x (by simp)
    have hxs : ∀ y ∈ xs, y ≠ z := fun w hw => hl w (by simp [hw])
    have hmem : ∀ y ∈ cmpSort numLe xs, y ≠ z := by
      intro w hw
      exact hxs w (mem_cmpSort.mp hw)
    simp only [cmpSort, ih hxs]
    exact cmpInsert_zfree hx hmem

theorem cmpInsert_append_z {z x : ℤ} {w : List ℤ} (hx : x ≠ z)
    (hw : ∀ y ∈ w, y ≠ z) :
    cmpInsert (zLe z) x (w ++ [z]) = cmpInsert numLe x w ++ [z] := by
  induction w with
  | nil =>
    have hxz : zLe z x z = true := by
      unfold zLe jsCmp
      simp [hx]
    simp [cmpInsert, hxz]
  | cons y ys ih =>
    have hy : y ≠ z := hw y (by simp)
    have hys : ∀ v ∈ ys, v ≠ z := fun v hv => hw v (by simp [hv])
    simp only [List.cons_append, cmpInsert, zLe_of_ne hx hy]
    by_cases h : numLe x y = true
    · simp [h]
    · simp [h, ih hys]

/-- Claim C4: zoom draw ordering: sorting any duplicate-free list of
registered zoom levels containing the ideal zoom z with the renderFrame
comparator yields exactly the other zoom levels in ordinary ascending
numeric order followed by z — the ideal zoom is always strictly last. -/
theorem zoomSortIdealLast (z : ℤ) (zs : List ℤ) (hnd : zs.Nodup)
    (hz : z ∈ zs) :
    cmpSort (zLe z) zs
      = cmpSort numLe (zs.filter (fun a => decide (a ≠ z))) ++ [z] := by
  induction zs with
  | nil => cases hz
  | cons x xs ih =>
    rcases List.nodup_cons.mp hnd with ⟨hx_not_mem, hxs_nd⟩
    by_cases hxz : x = z
    · subst hxz
      have hl : ∀ y ∈ xs, y ≠ x := by
        intro y hy he
        exact hx_not_mem (he ▸ hy)
      have hfilter : xs.filter (fun a => decide (a ≠ x)) = xs := by
        apply List.filter_eq_self.mpr
        intro a ha
        simp [hl a ha]
      have hfx : (x :: xs).filter (fun a => decide (a ≠ x)) = xs := by
        simp [List.filter]
        exact hl
      rw [hfx]
      simp only [cmpSort]
      rw [cmpSort_zfree hl, cmpInsert_z_last]
    · have hz_xs : z ∈ xs := by
        rcases List.mem_cons.mp hz with h | h
        · exact absurd h.symm hxz
        · exact h
      have hrec := ih hxs_nd hz_xs
      have hmem : ∀ y ∈ cmpSort numLe (xs.filter (fun a => decide (a ≠ z))),
          y ≠ z := by
        intro w hw
        have := mem_cmpSort.mp hw
        have := List.of_mem_filter this
        simpa using this
      have hfx : (x :: xs).filter (fun a => decide (a ≠ z))
          = x :: xs.filter (fun a => decide (a ≠ z)) := by
        simp [List.filter, hxz]
      rw [hfx]
      simp only [cmpSort]
      rw [hrec, cmpInsert_append_z hxz hmem]

/-- Witness for C4: zooms (3, 5, 7) with ideal zoom 5 sort to the others
ascending, then 5 last. -/
theorem zoomSortIdealLastWitness :
    cmpSort (zLe 5) [3, 5, 7]
      = cmpSort numLe ([3, 5, 7].filter (fun a => decide (a ≠ 5))) ++ [5] :=
  zoomSortIdealLast 5 [3, 5, 7] (by decide) (by decide)

/-- Counterexample for C5: getTile does mutate the lifecycle state of an
ERROR tile — with useInterimTilesOnError off, the ERROR tile comes back
with state LOADED (TileLayer.js line 96), so the state is not left
unchanged. -/
theorem getTileMutatesErrorState :
    errTileC.core.state = TileState.error
    ∧ (getTile errTileC false 0 false).1.core.state = TileState.loaded :=
  ⟨rfl, rfl⟩

/-- Claim C5 (amended): getTile mutates the lifecycle state field in
exactly one case — an ERROR tile with useInterimTilesOnError off is set to
LOADED; every other tile keeps its state, and getTile never touches the
transition bookkeeping, the coordinate, the image or the interim chain. -/
theorem getTileStateEffect (t : Tile) (u : Bool) (preload : ℕ) (nt : Bool) :
    ((getTile t u preload nt).1.core.state
      = if t.core.state = TileState.error ∧ u = false then TileState.loaded
        else t.core.state)
    ∧ (getTile t u preload nt).1.core.transitionDuration
        = t.core.transitionDuration
    ∧ (getTile t u preload nt).1.core.transitionStart
        = t.core.transitionStart
    ∧ (getTile t u preload nt).1.core.transitionEnded
        = t.core.transitionEnded
    ∧ (getTile t u preload nt).1.core.coord = t.core.coord
    ∧ (getTile t u preload nt).1.core.image = t.core.image
    ∧ (getTile t u preload nt).1.interims = t.interims := by
  unfold getTile
  by_cases he : t.core.state = TileState.error
  · cases u
    · simp [he]
    · by_cases hp : 0 < preload <;> simp [he, hp]
  · simp [he]

/-- Counterexample for C6: with fallback on error enabled but preload 0,
getTile on an ERROR tile leaves the newTiles flag false — it is not set
unconditionally (TileLayer.js line 97 requires getPreload () > 0). -/
theorem getTileErrorNoNewTiles :
    errTileC.core.state = TileState.error
    ∧ (getTile errTileC true 0 false).2.2 = false :=
  ⟨rfl, rfl⟩

/-- Claim C6 (amended): for a tile in ERROR state, if the layer does not
use interim tiles on error the tile is treated as loaded (state set to
LOADED, hence drawable, returned as-is, and the fallback search for it
will stop) and the newTiles flag is untouched; otherwise the tile is left
unchanged and the newTiles flag is raised exactly when the layer's preload
is positive. -/
theorem getTileErrorPolicy (t : Tile) (preload : ℕ) (nt : Bool)
    (h : t.core.state = TileState.error) :
    ((getTile t false preload nt).1.core.state = TileState.loaded
      ∧ isDrawableTile false (getTile t false preload nt).1 = true
      ∧ (getTile t false preload nt).2.1 = (getTile t false preload nt).1
      ∧ (getTile t false preload nt).2.2 = nt)
    ∧ ((getTile t true preload nt).1 = t
      ∧ (getTile t true preload nt).2.2 = (decide (0 < preload) || nt)) := by
  unfold getTile
  by_cases hp : 0 < preload <;> simp [h, hp, isDrawableTile]

/-- Witness for C6 (amended): the policy applied to a concrete ERROR tile
with preload 0: the newTiles flag stays as it was. -/
theorem getTileErrorPolicyWitness :
    (getTile errTileC true 0 false).2.2 = (decide (0 < 0) || false) :=
  (getTileErrorPolicy errTileC 0 false rfl).2.2

theorem drawTileImage_ops (t : Tile) (img : Image) (time : ℚ)
    (x y w h : ℤ) (g : ℚ) (tr srcSolid : Bool) (ctx : Ctx) (an : Bool)
    (himg : t.core.image = some img) :
    (drawTileImage t time x y w h g tr srcSolid ctx an).ops
      = (if (if tr then Tile.getAlpha t time else 1) = 1 ∧ srcSolid = false
          then [CanvasOp.clearRect x y w h] else [])
        ++ (if decide ((if tr then Tile.getAlpha t time else 1) ≠ ctx.globalAlpha)
          then [CanvasOp.save,
            CanvasOp.setGlobalAlpha (if tr then Tile.getAlpha t time else 1)]
          else [])
        ++ [CanvasOp.drawImage (if tr then Tile.getAlpha t time else 1) g g
          (img.width - 2 * g) (img.height - 2 * g) x y w h]
        ++ (if decide ((if tr then Tile.getAlpha t time else 1) ≠ ctx.globalAlpha)
          then [CanvasOp.restore] else []) := by
  simp [drawTileImage, himg]

/-- Counterexample for C7: a mid-transition draw (alpha 1/2, source not
fully opaque) issues no clearRect at all — the destination rectangle is
not cleared before blending, contrary to the claim; the clear happens only
on alpha-1 draws. -/
theorem drawTileMidTransitionNoClear :
    Tile.getAlpha tileMidC 1 < 1
    ∧ (drawTileImage tileMidC 1 0 0 10 10 0 true false
        ⟨1⟩ false).ops.filter isClearOp = []
    ∧ (drawTileImage tileMidC 1 0 0 10 10 0 true false ⟨1⟩ false).ops ≠ [] := by
  have ha : Tile.getAlpha tileMidC 1 = 1 / 2 := by
    unfold Tile.getAlpha tileMidC clampQ
    norm_num
  have hops := drawTileImage_ops tileMidC ⟨256, 256⟩ 1 0 0 10 10 0 true false
    ⟨1⟩ false rfl
  rw [if_pos rfl] at hops
  rw [ha] at hops
  have hc : ¬ ((1 : ℚ) / 2 = 1 ∧ false = false) := by norm_num
  have hd : ((1 : ℚ) / 2 ≠ (Ctx.mk 1).globalAlpha) := by
    show (1 : ℚ) / 2 ≠ 1
    norm_num
  rw [if_neg hc, if_pos (decide_eq_true hd), if_pos (decide_eq_true hd)] at hops
  refine ⟨by rw [ha]; norm_num, ?_, ?_⟩
  · rw [hops]
    simp [isClearOp]
  · rw [hops]
    simp

/-- Claim C7 (amended): in drawTileImage with an available image, the
destination rectangle is cleared (as the first operation) exactly when the
computed alpha is 1 and the source is not fully opaque — a mid-transition
draw (alpha below 1) does not clear; a mid-transition draw flags the frame
as still animating; an alpha-1 draw under the transition argument ends the
tile's transition; and the image is always drawn with the computed
alpha. -/
theorem drawTileClearBlend (t : Tile) (img : Image) (time : ℚ)
    (x y w h : ℤ) (g : ℚ) (tr srcSolid : Bool) (ctx : Ctx) (an : Bool)
    (himg : t.core.image = some img) :
    ((drawTileImage t time x y w h g tr srcSolid ctx an).ops.filter isClearOp ≠ []
      ↔ ((if tr then Tile.getAlpha t time else 1) = 1 ∧ srcSolid = false))
    ∧ ((if tr then Tile.getAlpha t time else 1) = 1 ∧ srcSolid = false →
        (drawTileImage t time x y w h g tr srcSolid ctx an).ops.head?
          = some (CanvasOp.clearRect x y w h))
    ∧ ((if tr then Tile.getAlpha t time else 1) ≠ 1 →
        (drawTileImage t time x y w h g tr srcSolid ctx an).animate = true)
    ∧ ((if tr then Tile.getAlpha t time else 1) = 1 ∧ tr = true →
        (drawTileImage t time x y w h g tr srcSolid ctx
          an).tile.core.transitionEnded = true)
    ∧ CanvasOp.drawImage (if tr then Tile.getAlpha t time else 1) g g
        (img.width - 2 * g) (img.height - 2 * g) x y w h
        ∈ (drawTileImage t time x y w h g tr srcSolid ctx an).ops := by
  have hops := drawTileImage_ops t img time x y w h g tr srcSolid ctx an himg
  refine ⟨?_, ?_, ?_, ?_, ?_⟩
  · rw [hops]
    by_cases hc : (if tr then Tile.getAlpha t time else 1) = 1 ∧ srcSolid = false
    · simp [hc, isClearOp]
    · rw [if_neg hc]
      simp only [List.nil_append]
      constructor
      · intro hne
        exfalso
        apply hne
        by_cases hd : decide ((if tr then Tile.getAlpha t time else 1)
            ≠ ctx.globalAlpha) = true
        · simp [hd, isClearOp]
        · simp only [Bool.not_eq_true] at hd
          simp [hd, isClearOp]
      · intro hcc
        exact absurd hcc hc
  · intro hc
    rw [hops, if_pos hc]
    simp
  · intro hne
    simp [drawTileImage, himg, hne]
  · intro hc
    obtain ⟨h1, h2⟩ := hc
    rw [h2] at h1
    simp only [if_true] at h1
    simp [drawTileImage, himg, h2, Tile.endTransition, h1]
  · rw [hops]
    simp

/-- Witness for C7 (amended): an alpha-1 transition draw on a concrete
loaded tile ends the tile's transition. -/
theorem drawTileClearBlendWitness :
    (drawTileImage tileLoadedC 0 0 0 10 10 0 true true
      ⟨1⟩ false).tile.core.transitionEnded = true :=
  (drawTileClearBlend tileLoadedC ⟨256, 256⟩ 0 0 0 10 10 0 true true ⟨1⟩ false
    rfl).2.2.2.1 ⟨rfl, rfl⟩

/-- Claim C10: for a tile whose image is unavailable, drawTileImage
returns immediately: no canvas operations, no clear, the context, the
animate flag and the tile (including its transition bookkeeping) are all
unchanged. -/
theorem drawTileImageNoImage (t : Tile) (time : ℚ) (x y w h : ℤ) (g : ℚ)
    (tr srcSolid : Bool) (ctx : Ctx) (an : Bool)
    (himg : t.core.image = none) :
    drawTileImage t time x y w h g tr srcSolid ctx an = ⟨[], ctx, an, t⟩ := by
  simp [drawTileImage, himg]

/-- Witness for C10: the no-image early return on a concrete imageless
ERROR tile. -/
theorem drawTileImageNoImageWitness :
    drawTileImage errTileC 0 0 0 1 1 0 false true ⟨1⟩ false
      = ⟨[], ⟨1⟩, false, errTileC⟩ :=
  drawTileImageNoImage errTileC 0 0 0 1 1 0 false true ⟨1⟩ false rfl

/-- Claim C2: fallback-search gating in the per-coordinate selection loop:
when the selected tile is drawable and its alpha at the frame time is 1,
neither the child-coverage check nor the ancestor walk runs; otherwise
(given the grid provides a child tile range at z + 1) the child range is
checked for full loaded coverage and the ancestor walk over the parent
tile ranges runs if and only if the children do not cover. -/
theorem selectFallbackGating (grid : TileGridM) (s : TileStore) (u : Bool)
    (prev : List Tile) (time : ℚ) (z : ℤ) (tile : Tile) (acc : TilesByZ)
    (nt : Bool) (cr : TileRange)
    (hcr : grid.childTileRange tile.core.coord = some cr) :
    ((isDrawableTile u tile = true ∧ Tile.getAlpha tile time = 1) →
      (selectBody grid s u prev time z tile acc nt).checkedChildren = false
      ∧ (selectBody grid s u prev time z tile acc nt).walkedParents = false)
    ∧ (¬ (isDrawableTile u tile = true ∧ Tile.getAlpha tile time = 1) →
      (selectBody grid s u prev time z tile acc nt).checkedChildren = true
      ∧ (selectBody grid s u prev time z tile acc nt).covered
          = rangeAllLoaded s (z + 1) cr
      ∧ ((selectBody grid s u prev time z tile acc nt).walkedParents = true
          ↔ rangeAllLoaded s (z + 1) cr = false)) := by
  constructor
  · rintro ⟨h1, h2⟩
    simp [selectBody, h1, h2]
  · intro hn
    have hcond : (isDrawableTile u tile
        && decide (Tile.getAlpha tile time = 1)) = false := by
      by_cases h1 : isDrawableTile u tile = true
      · have h2 : Tile.getAlpha tile time ≠ 1 := fun h => hn ⟨h1, h⟩
        simp [h1, h2]
      · simp only [Bool.not_eq_true] at h1
        simp [h1]
    by_cases hcov : rangeAllLoaded s (z + 1) cr = true
    · simp [selectBody, hcond, hcr, findLoadedTiles, hcov]
    · simp only [Bool.not_eq_true] at hcov
      simp [selectBody, hcond, hcr, findLoadedTiles, hcov]

/-- Witness for C2: a concrete non-drawable IDLE tile over an all-idle
store: the child range is checked, reports no coverage, and the ancestor
walk runs. -/
theorem selectFallbackGatingWitness :
    (selectBody gridChildC storeIdleC false [] 0 2 tileIdleC
      [((2 : ℤ), [])] false).checkedChildren = true
    ∧ (selectBody gridChildC storeIdleC false [] 0 2 tileIdleC
        [((2 : ℤ), [])] false).covered
        = rangeAllLoaded storeIdleC ((2 : ℤ) + 1) ⟨0, 1, 0, 1⟩
    ∧ ((selectBody gridChildC storeIdleC false [] 0 2 tileIdleC
        [((2 : ℤ), [])] false).walkedParents = true
        ↔ rangeAllLoaded storeIdleC ((2 : ℤ) + 1) ⟨0, 1, 0, 1⟩ = false) :=
  (selectFallbackGating gridChildC storeIdleC false [] 0 2 tileIdleC
    [((2 : ℤ), [])] false ⟨0, 1, 0, 1⟩ rfl).2 (by decide)

theorem selectPhase_empty (grid : TileGridM) (layer : LayerM)
    (prevT : List Tile) (time : ℚ) (z : ℤ) (tr : TileRange)
    (h : tr.isEmptyRange = true) :
    selectPhase grid layer prevT time z tr
      = ⟨⟨layer.source.base, []⟩, [(z, [])], false⟩ := by
  unfold selectPhase
  unfold TileRange.isEmptyRange at h
  rcases Bool.or_eq_true_iff.mp h with h1 | h1
  · have hlt := of_decide_eq_true h1
    rw [intRange_nil _ _ hlt]
    rfl
  · have hlt := of_decide_eq_true h1
    simp only [intRange_nil _ _ hlt, List.foldl_nil]
    exact foldl_self _ _

theorem drawPhase_single_empty (grid : TileGridM) (src : TileSourceM)
    (fs : FrameStateM) (z : ℤ) (tileRes tpr cScale : ℚ) (cExt : Extent)
    (tempT : Transform) (d0 : DrawState) :
    drawPhase grid src fs z tileRes tpr cScale cExt tempT [(z, [])] d0
      = d0 := by
  simp [drawPhase, cmpSort, cmpInsert, lookupZ]

theorem filter_drawImage_clearOps (pw ph w h : ℤ) :
    (clearOps pw ph w h).filter isDrawImageOp = [] := by
  unfold clearOps
  split <;> simp [isDrawImageOp]

theorem filter_drawImage_clipOps (e : Option Extent) :
    (clipOps e).filter isDrawImageOp = [] := by
  cases e <;> simp [clipOps, isDrawImageOp]

theorem filter_drawImage_endOps (e : Option Extent) :
    (endOps e).filter isDrawImageOp = [] := by
  cases e <;> simp [endOps, isDrawImageOp]

/-- Claim C8 (amended): for every frame whose tile range at the ideal zoom
is empty (minX exceeds maxX or minY exceeds maxY), renderFrame completes
(the model is a total function), draws no tiles — renderedTiles and
usedTiles are left empty and no drawImage operation is issued — while
still updating renderedRevision, renderedResolution and renderedExtent,
and still returning the (resized or cleared) canvas. -/
theorem renderFrameEmptyRange (m : MathFns) (grid : TileGridM)
    (layer : LayerM) (fs : FrameStateM) (ls : LayerStateM)
    (prev : RendererPrev) (zDir : ℤ)
    (h : (frameTileRange grid fs ls zDir).isEmptyRange = true) :
    (renderFrameModel m grid layer fs ls prev zDir).renderedTiles = []
    ∧ (renderFrameModel m grid layer fs ls prev zDir).usedTiles = []
    ∧ (renderFrameModel m grid layer fs ls prev zDir).ops.filter
        isDrawImageOp = []
    ∧ (renderFrameModel m grid layer fs ls prev zDir).renderedRevision
        = layer.source.revision
    ∧ (renderFrameModel m grid layer fs ls prev zDir).renderedResolution
        = grid.resolutionAt (idealZ grid fs zDir)
    ∧ (renderFrameModel m grid layer fs ls prev zDir).renderedExtent
        = canvasExtentOf m grid layer.source fs zDir
    ∧ (renderFrameModel m grid layer fs ls prev zDir).canvasW
        = (canvasSizeOf m layer.source fs).1
    ∧ (renderFrameModel m grid layer fs ls prev zDir).canvasH
        = (canvasSizeOf m layer.source fs).2 := by
  have hsel := selectPhase_empty grid layer prev.renderedTiles fs.time
    (idealZ grid fs zDir) (frameTileRange grid fs ls zDir) h
  simp only [renderFrameModel, hsel, drawPhase_single_empty]
  simp [List.filter_append, filter_drawImage_clearOps,
    filter_drawImage_clipOps, filter_drawImage_endOps, isDrawImageOp]

/-- Witness for C8 (amended): a concrete frame over a grid reporting an
inverted (empty) tile range renders no tiles. -/
theorem renderFrameEmptyRangeWitness :
    (renderFrameModel mIdC (gridConstC ⟨0, -1, 0, -1⟩) (layerOfC tileLoadedC)
      (fsOfC 100 100 ⟨0, 0, 1, 1⟩) lsNoneC prevEmptyC 0).renderedTiles
      = [] :=
  (renderFrameEmptyRange mIdC (gridConstC ⟨0, -1, 0, -1⟩)
    (layerOfC tileLoadedC) (fsOfC 100 100 ⟨0, 0, 1, 1⟩) lsNoneC prevEmptyC 0
    (by decide)).1

/-- Counterexample for C8: a zero-size viewport does not force
renderedTiles to stay empty — the tile range comes from the frame extent,
not the viewport size, so a zero-size frame whose (point) extent maps to a
one-tile range still selects and registers that tile: renderedTiles ends
up with one entry. -/
theorem renderFrameZeroSizeDrawsTile :
    (fsOfC 0 0 ⟨0, 0, 0, 0⟩).sizeW = 0
    ∧ (fsOfC 0 0 ⟨0, 0, 0, 0⟩).sizeH = 0
    ∧ (renderFrameModel mIdC (gridConstC ⟨0, 0, 0, 0⟩) (layerOfC tileLoadedC)
        (fsOfC 0 0 ⟨0, 0, 0, 0⟩) lsNoneC prevEmptyC 0).renderedTiles.length
        = 1 :=
  ⟨rfl, rfl, by decide⟩

end OLTile
